import Mathlib

/-!
Shallow embedding of the matchmaking core of the lobby server, translated from
`server/ladder_service/ladder_service.py` (the LadderService facade, match launcher,
pop-timer loop, data refresh) and `src/games/game.py` (player option storage of `Game`).
Machine reals (ratings, deviations, timestamps) are modelled as `Rat`.
-/

/-- Player states used by the ladder service, from `server.players.PlayerState`:
`IDLE`, `SEARCHING_LADDER`, `STARTING_AUTOMATCH`, `PLAYING`. -/
inductive PState
  | idle
  | searching
  | starting
  | playing
  deriving DecidableEq

/-! ### Slot assignment in `_start_game` (lines 605-650) and `Game` player options -/

/-- The player-option keys written by the slot-assignment loop of `_start_game`. -/
inductive OptKey
  | Faction
  | Team
  | StartSpot
  | Army
  | Color
  deriving DecidableEq

/-- A player as seen by the slot-assignment loop of `_start_game`: id,
faction value (`player.faction.value`) and rating mean for the queue rating type. -/
structure SlotPlayer where
  id : Nat
  faction : Nat
  mean : Rat
  deriving DecidableEq

/-- The `_player_options` store of `Game` (`game.py`), keyed by player id and option key.
The concrete `LadderGame` class instantiated by `_start_game` is not among the sources;
its store accepts direct assignment for fresh player ids, so the store is a total map
that answers `none` for keys never assigned. -/
def POpts := Nat → OptKey → Option Nat

/-- The player-option store of a freshly created game: nothing assigned. -/
def emptyOpts : POpts := fun _ _ => none

/-- Direct assignment `game._player_options[player.id][key] = value`
(also the body of `Game.set_player_option` in `game.py`). -/
def set_player_option (g : POpts) (pid : Nat) (k : OptKey) (v : Nat) : POpts :=
  fun i k2 => if i = pid ∧ k2 = k then some v else g i k2

/-- `Game.get_player_option` (`game.py` lines 244-255): the stored value,
or `None` when the key was never assigned. -/
def get_player_option (g : POpts) (pid : Nat) (k : OptKey) : Option Nat :=
  g pid k

/-- One iteration of the slot-assignment loop in `_start_game` at 0-based index `i`:
`slot = i + 1`, `team = (i % 2) + 2`, then the five option assignments in source order
(Faction, Team, StartSpot, Army, Color). -/
def assignOne (g : POpts) (p : SlotPlayer) (i : Nat) : POpts :=
  set_player_option
    (set_player_option
      (set_player_option
        (set_player_option
          (set_player_option g p.id OptKey.Faction p.faction)
          p.id OptKey.Team (i % 2 + 2))
        p.id OptKey.StartSpot (i + 1))
      p.id OptKey.Army (i + 1))
    p.id OptKey.Color (i + 1)

/-- The slot-assignment loop of `_start_game` over the enumerated players,
with `i` the enumeration index of the head. -/
def assignSlots : List SlotPlayer → Nat → POpts → POpts
  | [], _, g => g
  | p :: rest, i, g => assignSlots rest (i + 1) (assignOne g p i)

/-- The generator expression `player for pair in zipped_teams for player in pair`:
interleaving of the pair-shuffled zipped teams. -/
def interleavePairs : List (SlotPlayer × SlotPlayer) → List SlotPlayer
  | [] => []
  | (a, b) :: rest => a :: b :: interleavePairs rest

/-- The per-player fields of `make_game_options` read back through `get_player_option`:
(team, faction, map_position). -/
def make_game_options (g : POpts) (p : SlotPlayer) : Option Nat × Option Nat × Option Nat :=
  (get_player_option g p.id OptKey.Team,
   get_player_option g p.id OptKey.Faction,
   get_player_option g p.id OptKey.StartSpot)

/-! ### LadderService state and search lifecycle -/

/-- A `Search` as registered in the per-player search maps `self._searches`:
`sid` is the object identity, `players` its member players, `queueName` the target queue.
One record stands for the entries of all its member players, mirroring the invariant
that the same Search object is registered under every member for its queue. -/
structure SearchRec where
  sid : Nat
  players : List Nat
  queueName : String
  deriving DecidableEq

/-- Messages written to players by the ladder service (`player.write_message` payloads).
The human-readable notices are modelled structurally: `timeoutNotice` carries the logins
named in the text and the humanized longest remaining duration; `welcomeNotice` and
`calibrationNotice` are the two rating-progress notices, the latter carrying the
computed progress percentage. -/
inductive SSMsg
  | searchTimeout (times : List (Nat × Rat))
  | searchInfoStop (queueName : String)
  | searchInfoStart (queueName : String)
  | timeoutNotice (names : List String) (duration : Rat)
  | welcomeNotice
  | calibrationNotice (progress : Rat)
  deriving DecidableEq

/-- The LadderService fields touched by the embedded operations: `self.queues` (names),
`self._searches` (the registry of active Search records), the set of Search ids on which
`Search.cancel()` has been invoked, player states, `self._informed_players`, the log of
`queue.search(search)` enqueue tasks, and a counter supplying fresh Search identities. -/
structure LadderState where
  queues : List String
  searches : List SearchRec
  cancelledIds : List Nat
  playerStates : Nat → PState
  informed : List Nat
  enqueued : List (String × Nat)
  nextSid : Nat

/-- The state set up by `LadderService.__init__`: empty maps, nobody informed. -/
def ladderInit : LadderState :=
  { queues := []
  , searches := []
  , cancelledIds := []
  , playerStates := fun _ => PState.idle
  , informed := []
  , enqueued := []
  , nextSid := 0 }

/-- Lookup `self._searches[player].get(queue_name)`. -/
def findSearch (st : LadderState) (p : Nat) (qn : String) : Option SearchRec :=
  st.searches.find? fun s => decide (p ∈ s.players ∧ s.queueName = qn)

/-- `_clear_search` (lines 461-477): remove the Search from the map entry of every
participating player; does NOT cancel it. Returns the removed Search, if any. -/
def clear_search (st : LadderState) (p : Nat) (qn : String) : LadderState × Option SearchRec :=
  match findSearch st p qn with
  | none => (st, none)
  | some s => ({ st with searches := st.searches.erase s }, some s)

/-- The per-member body of the `_cancel_search` loop: a member with no remaining
search in any queue who is still searching is reset to idle. -/
def resetIdle (acc : LadderState) (q : Nat) : LadderState :=
  if (∀ t ∈ acc.searches, q ∉ t.players) ∧ acc.playerStates q = PState.searching then
    { acc with playerStates := fun r => if r = q then PState.idle else acc.playerStates r }
  else acc

/-- `_cancel_search` (lines 431-459): clear the search, invoke `Search.cancel()`
(recorded in `cancelledIds`), send `search_info stop` to every member, and reset
members with no remaining searches from searching to idle. A missing search is ignored. -/
def cancel_search (st : LadderState) (p : Nat) (qn : String) :
    LadderState × List (Nat × SSMsg) :=
  match clear_search st p qn with
  | (st1, none) => (st1, [])
  | (st1, some s) =>
    let st2 := { st1 with cancelledIds := s.sid :: st1.cancelledIds }
    let st3 := s.players.foldl resetIdle st2
    (st3, s.players.map fun q => (q, SSMsg.searchInfoStop qn))

/-- The keys of `self._searches[player]`: queue names under which the player is registered. -/
def playerQueueNames (st : LadderState) (p : Nat) : List String :=
  (st.searches.filter fun s => decide (p ∈ s.players)).map fun s => s.queueName

/-- The loop of `cancel_search` with `queue_name = None` over a list of queue names. -/
def cancel_search_all (p : Nat) : LadderState → List String → LadderState × List (Nat × SSMsg)
  | st, [] => (st, [])
  | st, qn :: rest =>
    let r1 := cancel_search st p qn
    let r2 := cancel_search_all p r1.1 rest
    (r2.1, r1.2 ++ r2.2)

/-- `write_rating_progress` (lines 479-510): on first encounter mark the player informed,
then send the welcome notice when deviation exceeds 490, the calibration notice with
progress `(500 - deviation) / 2.5` when it exceeds 250, and nothing otherwise. -/
def write_rating_progress (st : LadderState) (p : Nat) (deviation : Rat) :
    LadderState × List (Nat × SSMsg) :=
  if p ∈ st.informed then (st, [])
  else
    let st1 := { st with informed := p :: st.informed }
    if deviation > 490 then (st1, [(p, SSMsg.welcomeNotice)])
    else if deviation > 250 then
      (st1, [(p, SSMsg.calibrationNotice ((500 - deviation) / (2.5 : Rat)))])
    else (st1, [])

/-- `on_connection_lost` (lines 785-793): cancel all searches of the player
(removing their registry records) and forget the informed-rating-progress flag.
The subsequent `del self._searches[player]` removes the then-empty per-player dict,
which has no further effect in this representation. -/
def on_connection_lost (st : LadderState) (p : Nat) : LadderState × List (Nat × SSMsg) :=
  let r := cancel_search_all p st (playerQueueNames st p)
  ({ r.1 with informed := r.1.informed.erase p }, r.2)

/-! ### `start_search` (lines 340-416) -/

/-- A player as passed to `start_search`: id, login, and the rating deviation under
the queue rating type (the only rating component `start_search` reads). -/
structure VPlayer where
  id : Nat
  login : String
  deviation : Rat
  deriving DecidableEq

/-- An active violation as returned by `ViolationService.get_violations`:
`get_ban_expiration()` is `expiresAt` and `get_remaining()` is `expiresAt - now`. -/
structure ViolationR where
  expiresAt : Rat
  deriving DecidableEq

/-- Python `max(values, key=get_ban_expiration)` over a nonempty collection:
scan keeping the current element, replacing it only on strictly larger key. -/
def maxViolation : ViolationR → List ViolationR → ViolationR
  | v, [] => v
  | v, w :: t => maxViolation (if w.expiresAt > v.expiresAt then w else v) t

/-- `start_search`. The `timeouts` argument is the result of
`self.violation_service.get_violations(players)` (the violation service is external),
as the ordered list of its items; `now` is the current time used by `get_remaining()`.
If any timeout is active, each player of the party is sent the structured
`search_timeout` list, a `search_info stop` for the queue and the human-readable
notice, and the call returns with the state untouched. Otherwise existing searches
of the party for this queue are cancelled, a fresh Search is created and registered,
every player is set to searching, given the rating-progress message and a
`search_info start`, and the Search is enqueued in the target queue. -/
def start_search (st : LadderState) (players : List VPlayer) (qn : String)
    (timeouts : List (VPlayer × ViolationR)) (now : Rat) :
    LadderState × List (Nat × SSMsg) :=
  match timeouts with
  | t :: ts =>
    let times := (t :: ts).map fun pv => (pv.1.id, pv.2.expiresAt)
    let names := (t :: ts).map fun pv => pv.1.login
    let maxTime := (maxViolation t.2 (ts.map fun pv => pv.2)).expiresAt - now
    (st,
     players.flatMap fun p =>
       [(p.id, SSMsg.searchTimeout times),
        (p.id, SSMsg.searchInfoStop qn),
        (p.id, SSMsg.timeoutNotice names maxTime)])
  | [] =>
    let r1 := players.foldl
      (fun acc p =>
        let r := cancel_search acc.1 p.id qn
        (r.1, acc.2 ++ r.2))
      (st, ([] : List (Nat × SSMsg)))
    let sid := r1.1.nextSid
    let r2 := players.foldl
      (fun acc p =>
        let acc1 :=
          { acc.1 with playerStates := fun r => if r = p.id then PState.searching else acc.1.playerStates r }
        let rw := write_rating_progress acc1 p.id p.deviation
        (rw.1, acc.2 ++ rw.2 ++ [(p.id, SSMsg.searchInfoStart qn)]))
      (r1.1, r1.2)
    ({ r2.1 with
        searches := r2.1.searches ++ [⟨sid, players.map VPlayer.id, qn⟩]
      , enqueued := r2.1.enqueued ++ [(qn, sid)]
      , nextSid := sid + 1 }
    , r2.2)

/-! ### `update_data` (lines 147-191) and `fetch_rating_peak` (lines 296-338) -/

/-- `update_data`. The store argument is one `(technical_name, rating_type)` pair per
enabled queue row. Queues newly mentioned are created (appended), queues already
present are updated in place with `fetch_rating_peak` invoked for their store
rating type, and queues absent from the store are deleted. Nothing in the body
touches `self._searches` or any Search. The second component returned is the list
of rating types for which `fetch_rating_peak` was invoked. -/
def update_data (st : LadderState) (dbQueues : List (String × String)) :
    LadderState × List String :=
  let fetched := (dbQueues.filter fun q => decide (q.1 ∈ st.queues)).map fun q => q.2
  let afterAdd :=
    st.queues ++ ((dbQueues.map fun q => q.1).filter fun n => decide (n ∉ st.queues))
  let afterRemove := afterAdd.filter fun n => decide (n ∈ dbQueues.map fun q => q.1)
  ({ st with queues := afterRemove }, fetched)

/-- `fetch_rating_peak`. The argument is the `(rating_mean_before, rating_deviation_before)`
journal rows for the rating type, ordered by journal id descending; the SQL limit of 1000
is the `take`. Returns the rating peak (`statistics.mean` of `mean - 3 * deviation`,
defaulting to 1000.0 on no rows), the few-rows warning flag (`rowcount < 100`) and the
out-of-range warning flag (peak below 600 or above 1200). -/
def fetch_rating_peak (journalRows : List (Rat × Rat)) : Rat × Bool × Bool :=
  let rows := journalRows.take 1000
  let rowcount := rows.length
  let ratingPeak :=
    if rowcount > 0 then ((rows.map fun r => r.1 - 3 * r.2).sum) / (rowcount : Rat)
    else (1000 : Rat)
  (ratingPeak, decide (rowcount < 100), decide (ratingPeak < 600 ∨ ratingPeak > 1200))

/-! ### Rating-progress traces (for the once-per-player properties) -/

/-- Events relevant to the rating-progress subsystem: a `write_rating_progress` call
(issued from `start_search` with the player deviation) or a connection loss. -/
inductive RPEvent
  | write (p : Nat) (deviation : Rat)
  | connLost (p : Nat)
  deriving DecidableEq

/-- Run a list of rating-progress events against the service state, collecting
all messages written. -/
def runRP : LadderState → List RPEvent → LadderState × List (Nat × SSMsg)
  | st, [] => (st, [])
  | st, RPEvent.write p dev :: rest =>
    let r := write_rating_progress st p dev
    let r2 := runRP r.1 rest
    (r2.1, r.2 ++ r2.2)
  | st, RPEvent.connLost p :: rest =>
    let r := on_connection_lost st p
    let r2 := runRP r.1 rest
    (r2.1, r.2 ++ r2.2)

/-- Whether a message is one of the two rating-progress notices. -/
def isRPNotice : SSMsg → Bool
  | SSMsg.welcomeNotice => true
  | SSMsg.calibrationNotice _ => true
  | _ => false

/-- Number of rating-progress notices addressed to player `p` in a message log. -/
def rpNoticeCount (msgs : List (Nat × SSMsg)) (p : Nat) : Nat :=
  (msgs.filter fun m => decide (m.1 = p) && isRPNotice m.2).length

/-! ### `launch_match` (lines 696-747) -/

/-- A player as seen by `launch_match`: id and whether `lobby_connection` is non-nil. -/
structure LPlayer where
  id : Nat
  connected : Bool
  deriving DecidableEq

/-- A `write_launch_game` message sent to a player connection. -/
inductive LaunchMsg
  | launchGame (pid : Nat) (isHost : Bool)
  deriving DecidableEq

/-- Outcome of `launch_match`: normal return, or a raised `NotConnectedError`
naming the players (lines 799-802). -/
inductive LaunchResult
  | ok
  | notConnected (pids : List Nat)
  deriving DecidableEq

/-- `launch_match`. `hosted` and `launched` state whether `game.wait_hosted(60)` and
`game.wait_launched(60 + 10 * |guests|)` returned within their timeouts;
`connectedPlayers` is `game.get_connected_players()` at the launch timeout.
The `finally` block after `wait_hosted` runs on both paths: a guest without a
connection raises `NotConnectedError` (replacing any pending hosted-timeout error),
otherwise every guest is sent `launch_game is_host=False` even when the host timed
out, after which the pending hosted-timeout error propagates. -/
def launch_match (host : LPlayer) (guests : List LPlayer)
    (hosted : Bool) (launched : Bool) (connectedPlayers : List Nat) :
    List LaunchMsg × LaunchResult :=
  if !host.connected then ([], LaunchResult.notConnected [host.id])
  else
    let hostMsgs := [LaunchMsg.launchGame host.id true]
    let notConnectedGuests := guests.filter fun g => !g.connected
    if !notConnectedGuests.isEmpty then
      (hostMsgs, LaunchResult.notConnected (notConnectedGuests.map fun g => g.id))
    else
      let msgs := hostMsgs ++ guests.map fun g => LaunchMsg.launchGame g.id false
      if !hosted then (msgs, LaunchResult.notConnected [host.id])
      else if !launched then
        (msgs,
         LaunchResult.notConnected
           ((guests.filter fun g => !connectedPlayers.contains g.id).map fun g => g.id))
      else (msgs, LaunchResult.ok)

/-! ### The failure path of `_start_game` (lines 655-694) -/

/-- A participant of a failed launch: id and current state (starting for players
still in `STARTING_AUTOMATCH`). -/
structure SPlayer where
  id : Nat
  pstate : PState
  deriving DecidableEq

/-- The classified failure reaching the `except` block of `_start_game`:
`NotConnectedError` with its players, `GameClosedError` with its single player,
or any other exception. -/
inductive StartError
  | notConnected (pids : List Nat)
  | gameClosed (pid : Nat)
  | otherError
  deriving DecidableEq

/-- The metric label incremented for a failed launch. -/
inductive MatchLaunchLabel
  | timedOut
  | abortedByPlayer
  | errored
  deriving DecidableEq

/-- The `abandoning_players` computed by the `except` block of `_start_game`. -/
def abandoning_players : StartError → List Nat
  | StartError.notConnected ps => ps
  | StartError.gameClosed p => [p]
  | StartError.otherError => []

/-- The metric label chosen by the `except` block of `_start_game`. -/
def errorLabel : StartError → MatchLaunchLabel
  | StartError.notConnected _ => MatchLaunchLabel.timedOut
  | StartError.gameClosed _ => MatchLaunchLabel.abortedByPlayer
  | StartError.otherError => MatchLaunchLabel.errored

/-- Observable outcome of the `except` block of `_start_game`: whether
`game.on_game_finish()` ran, the metric label, the `match_cancelled` messages
(player id, `game_id` payload), the player list with updated states, and the
players passed to `register_violations`. -/
structure FailureResult where
  onGameFinishCalled : Bool
  metricLabel : MatchLaunchLabel
  messages : List (Nat × Option Nat)
  players : List SPlayer
  violations : List Nat
  deriving DecidableEq

/-- The `except` block of `_start_game`. `gameId` is `some id` when the game object
had been created before the failure, `none` otherwise; `allPlayers` is
`team1 + team2`. Every participant receives `match_cancelled` with the game id
(null when no game was created), participants still starting are reset to idle,
`game.on_game_finish()` runs exactly when a game was created, and violations are
registered for the abandoning players the error identifies. -/
def handle_start_game_failure (gameId : Option Nat) (e : StartError)
    (allPlayers : List SPlayer) : FailureResult :=
  { onGameFinishCalled := gameId.isSome
  , metricLabel := errorLabel e
  , messages := allPlayers.map fun p => (p.id, gameId)
  , players := allPlayers.map fun p =>
      if p.pstate = PState.starting then { p with pstate := PState.idle } else p
  , violations := abandoning_players e }

/-! ### 1v1 merge in the pop iteration (`has_no_overlap`, `_add_matches_from1v1`) -/

/-- An original `Search` inside a proposed match: object identity and member players. -/
structure MSearch where
  sid : Nat
  players : List Nat
  deriving DecidableEq

/-- A team of a proposed match; `origs` is `team.get_original_searches()`. -/
structure MTeam where
  origs : List MSearch
  deriving DecidableEq

/-- A proposed match, iterated as `for team in match`. -/
abbrev MMatch := List MTeam

/-- Modelled from the spec: `are_searches_disjoint` lives in
`server/matchmaker/search.py`, which is not among the sources. Per the spec,
two matches collide iff they share at least one original Search, so two Search
collections are disjoint iff no Search belongs to both. -/
def are_searches_disjoint (s1 s2 : List MSearch) : Bool :=
  s1.all fun s => decide (s ∉ s2)

/-- The set comprehension of `has_no_overlap`: all original searches of a match. -/
def searches_in_match (m : MMatch) : List MSearch :=
  m.flatMap fun t => t.origs

/-- `has_no_overlap` (lines 56-58). -/
def has_no_overlap (m : MMatch) (matchesTmmSearches : List MSearch) : Bool :=
  are_searches_disjoint (searches_in_match m) matchesTmmSearches

/-- The `matches_tmm_searches` comprehension inside `_add_matches_from1v1`:
all original searches of the already-picked matches. -/
def matches_tmm_searches (picked : List MMatch) : List MSearch :=
  picked.flatMap searches_in_match

/-- `_add_matches_from1v1` (lines 124-134). Each 1v1 queue contributes the result of
`find_matches1v1()` (an argument, since the queue class is not among the sources);
candidates sharing an original Search with the matches merged so far are filtered
out, the rest are appended. -/
def add_matches_from1v1 (matchesTmm : List MMatch) (queues1v1 : List (List MMatch)) :
    List MMatch :=
  queues1v1.foldl
    (fun acc q => acc ++ q.filter fun m => has_no_overlap m (matches_tmm_searches acc))
    matchesTmm

/-- All players of a proposed match. -/
def match_players (m : MMatch) : List Nat :=
  (searches_in_match m).flatMap fun s => s.players

/-- Two matches share no original Search. -/
def matchesSearchDisjoint (m1 m2 : MMatch) : Prop :=
  ∀ s ∈ searches_in_match m1, s ∉ searches_in_match m2

/-- Two matches share no player. -/
def matchesPlayerDisjoint (m1 m2 : MMatch) : Prop :=
  ∀ p ∈ match_players m1, p ∉ match_players m2

instance (m1 m2 : MMatch) : Decidable (matchesSearchDisjoint m1 m2) := by
  unfold matchesSearchDisjoint; infer_instance

instance (m1 m2 : MMatch) : Decidable (matchesPlayerDisjoint m1 m2) := by
  unfold matchesPlayerDisjoint; infer_instance

/-! ### The pop-timer loop `_queue_pop_timer` (lines 95-114) -/

/-- Outcome of one loop body (`await self.timer.next_pop()` followed by
`await self._queue_pop_iteration()`): normal completion, `CancelledError`,
or any other exception. -/
inductive PopOutcome
  | ok
  | cancelled
  | popError
  deriving DecidableEq

/-- Observable events of the pop-timer loop: a completed pop iteration, the
stack-trace log of an unexpected error, the one-second recovery sleep, and the
final log after leaving the loop. -/
inductive PopEvent
  | popDone
  | errorLogged
  | slept
  | loopStopped
  deriving DecidableEq

/-- `_queue_pop_timer`: the loop consumes one outcome per iteration; the outcome
list running out corresponds to `self._is_running` becoming false at the loop test.
Normal completion proceeds, `CancelledError` breaks out, any other exception is
logged, followed by a one-second sleep, and the loop resumes. -/
def queue_pop_timer : List PopOutcome → List PopEvent
  | [] => [PopEvent.loopStopped]
  | PopOutcome.ok :: rest => PopEvent.popDone :: queue_pop_timer rest
  | PopOutcome.cancelled :: _ => [PopEvent.loopStopped]
  | PopOutcome.popError :: rest =>
    PopEvent.errorLogged :: PopEvent.slept :: queue_pop_timer rest

/-- The events one non-breaking outcome contributes to the loop trace. -/
def outcomeEvents : PopOutcome → List PopEvent
  | PopOutcome.ok => [PopEvent.popDone]
  | PopOutcome.cancelled => []
  | PopOutcome.popError => [PopEvent.errorLogged, PopEvent.slept]

/-- Trace contribution of a list of outcomes. -/
def traceEvents (l : List PopOutcome) : List PopEvent :=
  l.flatMap outcomeEvents

/-! ### Concrete instances used by counterexamples -/

/-- A service state holding one queue named q with one enrolled Search. -/
def c2State : LadderState :=
  { ladderInit with queues := ["q"], searches := [⟨0, [7], "q"⟩] }

/-- Already-picked team matches for the 1v1-merge counterexample: one match whose
two teams are the searches with ids 0 and 1, covering players 0 and 1. -/
def c6Tmm : List MMatch := [[⟨[⟨0, [0]⟩]⟩, ⟨[⟨1, [1]⟩]⟩]]

/-- One 1v1 queue proposing one match between the searches with ids 2 and 3;
search 2 belongs to player 0, who also sits (through the distinct search 0)
in the already-picked team match. -/
def c6Queues : List (List MMatch) := [[[⟨[⟨2, [0]⟩]⟩, ⟨[⟨3, [2]⟩]⟩]]]

/-! ## Theorems -/

/-! ### C1: slot assignment -/

theorem assignOne_ne (g : POpts) (p : SlotPlayer) (i : Nat) (pid : Nat) (k : OptKey)
    (h : pid ≠ p.id) : assignOne g p i pid k = g pid k := by
  simp [assignOne, set_player_option, h]

theorem assignOne_vals (g : POpts) (p : SlotPlayer) (i : Nat) :
    assignOne g p i p.id OptKey.StartSpot = some (i + 1) ∧
    assignOne g p i p.id OptKey.Army = some (i + 1) ∧
    assignOne g p i p.id OptKey.Color = some (i + 1) ∧
    assignOne g p i p.id OptKey.Team = some (i % 2 + 2) ∧
    assignOne g p i p.id OptKey.Faction = some p.faction := by
  refine ⟨?_, ?_, ?_, ?_, ?_⟩ <;> simp [assignOne, set_player_option]

theorem assignSlots_not_mem (l : List SlotPlayer) (i : Nat) (g : POpts) (pid : Nat)
    (k : OptKey) (h : pid ∉ l.map SlotPlayer.id) :
    assignSlots l i g pid k = g pid k := by
  induction l generalizing i g with
  | nil => rfl
  | cons p rest ih =>
    simp only [List.map_cons, List.mem_cons, not_or] at h
    show assignSlots rest (i + 1) (assignOne g p i) pid k = g pid k
    rw [ih (i + 1) (assignOne g p i) h.2, assignOne_ne g p i pid k h.1]

theorem assignSlots_get (l : List SlotPlayer) (i0 : Nat) (g : POpts)
    (h : (l.map SlotPlayer.id).Nodup) (j : Nat) (hj : j < l.length) :
    assignSlots l i0 g (l.get ⟨j, hj⟩).id OptKey.StartSpot = some (i0 + j + 1) ∧
    assignSlots l i0 g (l.get ⟨j, hj⟩).id OptKey.Army = some (i0 + j + 1) ∧
    assignSlots l i0 g (l.get ⟨j, hj⟩).id OptKey.Color = some (i0 + j + 1) ∧
    assignSlots l i0 g (l.get ⟨j, hj⟩).id OptKey.Team = some ((i0 + j) % 2 + 2) ∧
    assignSlots l i0 g (l.get ⟨j, hj⟩).id OptKey.Faction = some (l.get ⟨j, hj⟩).faction := by
  induction l generalizing i0 g j with
  | nil => exact absurd hj (by simp)
  | cons p rest ih =>
    cases j with
    | zero =>
      have hne : p.id ∉ rest.map SlotPlayer.id := by
        simp only [List.map_cons, List.nodup_cons] at h
        exact h.1
      obtain ⟨h1, h2, h3, h4, h5⟩ := assignOne_vals g p i0
      refine ⟨?_, ?_, ?_, ?_, ?_⟩ <;>
        simp only [Nat.add_zero, List.get] <;>
        rw [show assignSlots (p :: rest) i0 g = assignSlots rest (i0 + 1) (assignOne g p i0) from rfl,
            assignSlots_not_mem rest (i0 + 1) (assignOne g p i0) p.id _ hne] <;>
        first
          | exact h1
          | exact h2
          | exact h3
          | exact h4
          | exact h5
    | succ j2 =>
      have htail : (rest.map SlotPlayer.id).Nodup := by
        simp only [List.map_cons, List.nodup_cons] at h
        exact h.2
      have hj2 : j2 < rest.length := by
        simpa using Nat.lt_of_succ_lt_succ hj
      have hmain := ih (i0 + 1) (assignOne g p i0) htail j2 hj2
      have heq : i0 + 1 + j2 = i0 + (j2 + 1) := by omega
      rw [heq] at hmain
      exact hmain

/-- C1 (amended): enumerating the pair-shuffled zipped teams into 1-based slots,
the player at slot `j + 1` (0-based index `j`) gets StartSpot, Army and Color equal
to the slot, Team equal to 2 when the slot is odd and 3 when the slot is even, and
Faction from the player; `make_game_options` reads exactly these values back through
`get_player_option`. The original claim had the Team parity inverted. -/
theorem c1_slot_assignment (zipped : List (SlotPlayer × SlotPlayer))
    (h : ((interleavePairs zipped).map SlotPlayer.id).Nodup)
    (j : Nat) (hj : j < (interleavePairs zipped).length) :
    get_player_option (assignSlots (interleavePairs zipped) 0 emptyOpts)
        ((interleavePairs zipped).get ⟨j, hj⟩).id OptKey.StartSpot = some (j + 1) ∧
    get_player_option (assignSlots (interleavePairs zipped) 0 emptyOpts)
        ((interleavePairs zipped).get ⟨j, hj⟩).id OptKey.Army = some (j + 1) ∧
    get_player_option (assignSlots (interleavePairs zipped) 0 emptyOpts)
        ((interleavePairs zipped).get ⟨j, hj⟩).id OptKey.Color = some (j + 1) ∧
    get_player_option (assignSlots (interleavePairs zipped) 0 emptyOpts)
        ((interleavePairs zipped).get ⟨j, hj⟩).id OptKey.Team =
      some (if (j + 1) % 2 = 0 then 3 else 2) ∧
    make_game_options (assignSlots (interleavePairs zipped) 0 emptyOpts)
        ((interleavePairs zipped).get ⟨j, hj⟩) =
      (some (if (j + 1) % 2 = 0 then 3 else 2),
       some ((interleavePairs zipped).get ⟨j, hj⟩).faction,
       some (j + 1)) := by
  obtain ⟨h1, h2, h3, h4, h5⟩ := assignSlots_get (interleavePairs zipped) 0 emptyOpts h j hj
  simp only [Nat.zero_add] at h1 h2 h3 h4 h5
  have hteam : j % 2 + 2 = if (j + 1) % 2 = 0 then 3 else 2 := by
    rcases Nat.mod_two_eq_zero_or_one j with h0 | h0
    · have hs : (j + 1) % 2 = 1 := by omega
      rw [hs, h0]
      simp
    · have hs : (j + 1) % 2 = 0 := by omega
      rw [hs, h0]
      simp
  rw [hteam] at h4
  exact ⟨h1, h2, h3, h4, by
    simp only [make_game_options, get_player_option]
    rw [h4, h5, h1]⟩

/-- C1 counterexample: with one zipped pair (players 0 and 1), the player at slot 1
(an odd slot) is assigned Team 2, not Team 3 as the claim states for odd slots. -/
theorem c1_team_parity_cex :
    get_player_option
        (assignSlots (interleavePairs [(⟨0, 1, 0⟩, ⟨1, 1, 0⟩)]) 0 emptyOpts) 0 OptKey.Team
      = some 2 ∧
    ¬ get_player_option
        (assignSlots (interleavePairs [(⟨0, 1, 0⟩, ⟨1, 1, 0⟩)]) 0 emptyOpts) 0 OptKey.Team
      = some 3 := by
  constructor
  · rfl
  · decide

/-- C1 witness: the amended theorem evaluated on a concrete zipped pair with
distinct player ids; the player at slot 2 gets Team 3. -/
theorem c1_slot_assignment_witness :
    get_player_option
        (assignSlots (interleavePairs [(⟨0, 1, 100⟩, ⟨1, 2, 200⟩)]) 0 emptyOpts)
        ((interleavePairs [(⟨0, 1, 100⟩, ⟨1, 2, 200⟩)]).get ⟨1, by decide⟩).id OptKey.Team
      = some (if (1 + 1) % 2 = 0 then 3 else 2) :=
  (c1_slot_assignment [(⟨0, 1, 100⟩, ⟨1, 2, 200⟩)] (by decide) 1 (by decide)).2.2.2.1

/-! ### C9: the pop-timer loop -/

theorem traceEvents_qpt (pre : List PopOutcome)
    (h : ∀ o ∈ pre, o ≠ PopOutcome.cancelled) (rest : List PopOutcome) :
    queue_pop_timer (pre ++ rest) = traceEvents pre ++ queue_pop_timer rest := by
  induction pre with
  | nil => simp [traceEvents]
  | cons o t ih =>
    have ho := h o (by simp)
    have ht : ∀ x ∈ t, x ≠ PopOutcome.cancelled := fun x hx => h x (by simp [hx])
    cases o with
    | ok => simp [queue_pop_timer, traceEvents, outcomeEvents, ih ht, List.flatMap_cons]
    | cancelled => exact absurd rfl ho
    | popError => simp [queue_pop_timer, traceEvents, outcomeEvents, ih ht, List.flatMap_cons]

/-- C9: after any cancellation-free sequence of loop iterations, an unexpected
error is logged, followed by the one-second sleep, and the loop goes on to process
further outcomes; a CancelledError terminates the loop with no further pop, as does
the running flag being cleared (outcome list running out). -/
theorem c9_pop_loop_resilience (pre post : List PopOutcome)
    (h : ∀ o ∈ pre, o ≠ PopOutcome.cancelled) :
    queue_pop_timer (pre ++ PopOutcome.popError :: post) =
      traceEvents pre ++ PopEvent.errorLogged :: PopEvent.slept :: queue_pop_timer post ∧
    queue_pop_timer (pre ++ PopOutcome.cancelled :: post) =
      traceEvents pre ++ [PopEvent.loopStopped] ∧
    queue_pop_timer pre = traceEvents pre ++ [PopEvent.loopStopped] := by
  refine ⟨?_, ?_, ?_⟩
  · rw [traceEvents_qpt pre h]
    rfl
  · rw [traceEvents_qpt pre h]
    rfl
  · have h2 := traceEvents_qpt pre h []
    rw [List.append_nil] at h2
    exact h2

/-- C9 witness: the loop theorem evaluated on a concrete outcome sequence. -/
theorem c9_pop_loop_resilience_witness :
    queue_pop_timer ([PopOutcome.ok] ++ PopOutcome.popError :: [PopOutcome.ok]) =
      traceEvents [PopOutcome.ok] ++
        PopEvent.errorLogged :: PopEvent.slept :: queue_pop_timer [PopOutcome.ok] ∧
    queue_pop_timer ([PopOutcome.ok] ++ PopOutcome.cancelled :: [PopOutcome.ok]) =
      traceEvents [PopOutcome.ok] ++ [PopEvent.loopStopped] ∧
    queue_pop_timer [PopOutcome.ok] = traceEvents [PopOutcome.ok] ++ [PopEvent.loopStopped] :=
  c9_pop_loop_resilience [PopOutcome.ok] [PopOutcome.ok] (by decide)

/-! ### C2: queue removal on refresh -/

/-- C2 (amended): a queue present in the service but absent from the store is removed
from the queue map on refresh, but the Searches enrolled in it are NOT cancelled:
`update_data` leaves the search registry and the cancellation record untouched. -/
theorem c2_queue_removal (st : LadderState) (dbQueues : List (String × String)) (qn : String)
    (h1 : qn ∈ st.queues) (h2 : qn ∉ dbQueues.map fun q => q.1) :
    qn ∉ (update_data st dbQueues).1.queues ∧
    (update_data st dbQueues).1.searches = st.searches ∧
    (update_data st dbQueues).1.cancelledIds = st.cancelledIds := by
  refine ⟨?_, rfl, rfl⟩
  intro hmem
  simp only [update_data, List.mem_filter, decide_eq_true_iff] at hmem
  exact h2 hmem.2

/-- C2 counterexample: with queue q in the service, an enrolled Search on it, and the
store no longer listing q, `update_data` removes the queue yet the Search is still
registered and `Search.cancel()` was never invoked on it. -/
theorem c2_no_cancellation_cex :
    "q" ∈ c2State.queues ∧
    (⟨0, [7], "q"⟩ : SearchRec) ∈ c2State.searches ∧
    "q" ∉ (update_data c2State []).1.queues ∧
    (⟨0, [7], "q"⟩ : SearchRec) ∈ (update_data c2State []).1.searches ∧
    (0 : Nat) ∉ (update_data c2State []).1.cancelledIds := by
  decide

/-- C2 witness: the amended removal theorem evaluated on the concrete state. -/
theorem c2_queue_removal_witness :
    "q" ∉ (update_data c2State []).1.queues ∧
    (update_data c2State []).1.searches = c2State.searches ∧
    (update_data c2State []).1.cancelledIds = c2State.cancelledIds :=
  c2_queue_removal c2State [] "q" (by decide) (by decide)

/-! ### C8: rating-peak recomputation on refresh -/

/-- C8 (amended): on a refresh, `fetch_rating_peak` is invoked exactly for the rating
types of store queues already present in the service (newly created queues get no
recomputation); the fetched peak is the mean of `mean_before - 3 * deviation_before`
over the supplied (at most 1000) journal rows, defaulting to 1000.0 on no rows, with
the warning flags set exactly when fewer than 100 rows were fetched or the result
lies outside the 600 to 1200 band. -/
theorem c8_rating_peak (st : LadderState) (dbQueues : List (String × String)) (rt : String)
    (rows : List (Rat × Rat)) (hrows : rows ≠ []) (hlen : rows.length ≤ 1000) :
    (rt ∈ (update_data st dbQueues).2 ↔ ∃ nm, (nm, rt) ∈ dbQueues ∧ nm ∈ st.queues) ∧
    (fetch_rating_peak rows).1 * (rows.length : Rat) =
      ((rows.map fun r => r.1 - 3 * r.2).sum) ∧
    (fetch_rating_peak []).1 = 1000 ∧
    ((fetch_rating_peak rows).2.1 = true ↔ rows.length < 100) ∧
    ((fetch_rating_peak rows).2.2 = true ↔
      ((fetch_rating_peak rows).1 < 600 ∨ (fetch_rating_peak rows).1 > 1200)) := by
  have htake : rows.take 1000 = rows := List.take_of_length_le hlen
  have hpos : 0 < rows.length := List.length_pos.mpr hrows
  have hne : ((rows.length : Rat)) ≠ 0 := by exact_mod_cast hpos.ne'
  refine ⟨?_, ?_, rfl, ?_, ?_⟩
  · simp only [update_data, List.mem_map, List.mem_filter, decide_eq_true_iff]
    constructor
    · rintro ⟨q, ⟨hq1, hq2⟩, hq3⟩
      refine ⟨q.1, ?_, hq2⟩
      have hq4 : (q.1, rt) = q := by
        rw [← hq3]
      rw [hq4]
      exact hq1
    · rintro ⟨nm, hmem, hin⟩
      exact ⟨(nm, rt), ⟨hmem, hin⟩, rfl⟩
  · simp only [fetch_rating_peak, htake, if_pos hpos]
    exact div_mul_cancel₀ _ hne
  · simp only [fetch_rating_peak, htake, decide_eq_true_iff]
  · simp only [fetch_rating_peak, htake, decide_eq_true_iff]

/-- C8 counterexample: at a refresh where the store lists a queue unknown to the
service (in particular the very first refresh), the rating type is seen in the store,
the queue is created, yet `fetch_rating_peak` is never invoked, contradicting the
claim that every rating-type seen gets its peak recomputed on every refresh. -/
theorem c8_new_queue_no_fetch_cex :
    ("global" ∈ ([(("queue1" : String), ("global" : String))].map fun q => q.2)) ∧
    "queue1" ∈ (update_data ladderInit [("queue1", "global")]).1.queues ∧
    (update_data ladderInit [("queue1", "global")]).2 = [] := by
  decide

/-- C8 witness: the amended theorem evaluated on a single-row journal and a store
row whose queue is already present. -/
theorem c8_rating_peak_witness :
    (("global" : String) ∈ (update_data c2State [("q", "global")]).2 ↔
      ∃ nm, (nm, ("global" : String)) ∈ [(("q" : String), ("global" : String))] ∧
        nm ∈ c2State.queues) ∧
    (fetch_rating_peak [((1000 : Rat), (0 : Rat))]).1 *
        ((([((1000 : Rat), (0 : Rat))] : List (Rat × Rat)).length : Rat)) =
      ((([((1000 : Rat), (0 : Rat))] : List (Rat × Rat)).map fun r => r.1 - 3 * r.2).sum) ∧
    (fetch_rating_peak []).1 = 1000 ∧
    ((fetch_rating_peak [((1000 : Rat), (0 : Rat))]).2.1 = true ↔
      ([((1000 : Rat), (0 : Rat))] : List (Rat × Rat)).length < 100) ∧
    ((fetch_rating_peak [((1000 : Rat), (0 : Rat))]).2.2 = true ↔
      ((fetch_rating_peak [((1000 : Rat), (0 : Rat))]).1 < 600 ∨
       (fetch_rating_peak [((1000 : Rat), (0 : Rat))]).1 > 1200)) :=
  c8_rating_peak c2State [("q", "global")] "global" [((1000 : Rat), (0 : Rat))]
    (by decide) (by decide)

/-! ### C3: hosted-timeout still launches the guests -/

/-- C3: when the host has a connection, every guest has a connection, and
`game.wait_hosted` times out, `launch_match` fails with `NotConnectedError` naming
exactly the host, and the cleanup block has nevertheless sent
`launch_game is_host=False` to every guest. -/
theorem c3_host_timeout_guest_launch (host : LPlayer) (guests : List LPlayer)
    (launched : Bool) (connectedPlayers : List Nat)
    (h1 : host.connected = true) (h2 : ∀ g ∈ guests, g.connected = true) :
    (launch_match host guests false launched connectedPlayers).2 =
      LaunchResult.notConnected [host.id] ∧
    ∀ g ∈ guests,
      LaunchMsg.launchGame g.id false ∈
        (launch_match host guests false launched connectedPlayers).1 := by
  have hfil : (guests.filter fun g => !g.connected) = [] := by
    simp only [List.filter_eq_nil_iff]
    intro g hg
    simp [h2 g hg]
  have hmain : launch_match host guests false launched connectedPlayers =
      (LaunchMsg.launchGame host.id true :: (guests.map fun g => LaunchMsg.launchGame g.id false),
       LaunchResult.notConnected [host.id]) := by
    simp [launch_match, h1, hfil]
  rw [hmain]
  refine ⟨rfl, ?_⟩
  intro g hg
  simp only [List.mem_cons, List.mem_map]
  exact Or.inr ⟨g, hg, rfl⟩

/-- C3 witness: a connected host, one connected guest, hosted timeout. -/
theorem c3_host_timeout_guest_launch_witness :
    (launch_match ⟨0, true⟩ [⟨1, true⟩] false true []).2 = LaunchResult.notConnected [0] ∧
    ∀ g ∈ ([⟨1, true⟩] : List LPlayer),
      LaunchMsg.launchGame g.id false ∈ (launch_match ⟨0, true⟩ [⟨1, true⟩] false true []).1 :=
  c3_host_timeout_guest_launch ⟨0, true⟩ [⟨1, true⟩] true [] rfl (by decide)

/-! ### C4: cleanup on any `_start_game` failure -/

/-- C4: on any classified failure of `_start_game`, `game.on_game_finish()` runs iff a
game object was created, every participant receives `match_cancelled` carrying the
game id (null when no game exists), participants still in the starting state are reset
to idle (and only those change), and violations are registered exactly for the
abandoning players the error identifies: the not-connected players for a
connection or timeout failure, the single closer for a game-closed failure,
nobody otherwise. -/
theorem c4_failure_cleanup (gameId : Option Nat) (e : StartError) (allPlayers : List SPlayer) :
    ((handle_start_game_failure gameId e allPlayers).onGameFinishCalled = true ↔
      gameId ≠ none) ∧
    (∀ p ∈ allPlayers,
      (p.id, gameId) ∈ (handle_start_game_failure gameId e allPlayers).messages) ∧
    (∀ p ∈ allPlayers, p.pstate = PState.starting →
      ({ p with pstate := PState.idle } : SPlayer) ∈
        (handle_start_game_failure gameId e allPlayers).players) ∧
    (∀ p ∈ allPlayers, p.pstate ≠ PState.starting →
      p ∈ (handle_start_game_failure gameId e allPlayers).players) ∧
    (∀ q ∈ (handle_start_game_failure gameId e allPlayers).players,
      q.pstate ≠ PState.starting) ∧
    (handle_start_game_failure gameId e allPlayers).violations = abandoning_players e ∧
    (∀ ps, e = StartError.notConnected ps →
      (handle_start_game_failure gameId e allPlayers).violations = ps) ∧
    (∀ pid, e = StartError.gameClosed pid →
      (handle_start_game_failure gameId e allPlayers).violations = [pid]) ∧
    (e = StartError.otherError →
      (handle_start_game_failure gameId e allPlayers).violations = []) := by
  refine ⟨Option.isSome_iff_ne_none, ?_, ?_, ?_, ?_, rfl, ?_, ?_, ?_⟩
  · intro p hp
    exact List.mem_map_of_mem _ hp
  · intro p hp hst
    exact List.mem_map.mpr ⟨p, hp, by simp [hst]⟩
  · intro p hp hst
    exact List.mem_map.mpr ⟨p, hp, by simp [hst]⟩
  · intro q hq
    simp only [handle_start_game_failure, List.mem_map] at hq
    obtain ⟨p, _, rfl⟩ := hq
    by_cases hps : p.pstate = PState.starting
    · simp [hps]
    · simp [hps]
  · rintro ps rfl
    rfl
  · rintro pid rfl
    rfl
  · rintro rfl
    rfl

/-- C4 witness: a created game (id 7), a game-closed failure by player 3, one
starting participant and one already playing. -/
theorem c4_failure_cleanup_witness :
    (⟨3, PState.idle⟩ : SPlayer) ∈
      (handle_start_game_failure (some 7) (StartError.gameClosed 3)
        [⟨3, PState.starting⟩, ⟨4, PState.playing⟩]).players ∧
    ((3 : Nat), (some 7 : Option Nat)) ∈
      (handle_start_game_failure (some 7) (StartError.gameClosed 3)
        [⟨3, PState.starting⟩, ⟨4, PState.playing⟩]).messages ∧
    (handle_start_game_failure (some 7) (StartError.gameClosed 3)
        [⟨3, PState.starting⟩, ⟨4, PState.playing⟩]).violations = [3] := by
  have h := c4_failure_cleanup (some 7) (StartError.gameClosed 3)
    [⟨3, PState.starting⟩, ⟨4, PState.playing⟩]
  exact ⟨h.2.2.1 ⟨3, PState.starting⟩ (by decide) rfl,
         h.2.1 ⟨3, PState.starting⟩ (by decide),
         h.2.2.2.2.2.2.2.1 3 rfl⟩

/-! ### C5: timeout gating in `start_search` -/

theorem maxViolation_spec (l : List ViolationR) : ∀ v : ViolationR,
    (maxViolation v l = v ∨ maxViolation v l ∈ l) ∧
    v.expiresAt ≤ (maxViolation v l).expiresAt ∧
    ∀ w ∈ l, w.expiresAt ≤ (maxViolation v l).expiresAt := by
  induction l with
  | nil => exact fun v => ⟨Or.inl rfl, le_refl _, by simp⟩
  | cons w t ih =>
    intro v
    by_cases hgt : w.expiresAt > v.expiresAt
    · have hik := ih w
      have hred : maxViolation v (w :: t) = maxViolation w t := by
        simp [maxViolation, hgt]
      rw [hred]
      refine ⟨?_, ?_, ?_⟩
      · rcases hik.1 with h | h
        · exact Or.inr (by simp [h])
        · exact Or.inr (by simp [h])
      · exact le_trans (le_of_lt hgt) hik.2.1
      · intro u hu
        rcases List.mem_cons.mp hu with rfl | hu2
        · exact hik.2.1
        · exact hik.2.2 u hu2
    · have hik := ih v
      have hred : maxViolation v (w :: t) = maxViolation v t := by
        simp [maxViolation, hgt]
      rw [hred]
      refine ⟨?_, hik.2.1, ?_⟩
      · rcases hik.1 with h | h
        · exact Or.inl h
        · exact Or.inr (by simp [h])
      · intro u hu
        rcases List.mem_cons.mp hu with rfl | hu2
        · exact le_trans (not_lt.mp hgt) hik.2.1
        · exact hik.2.2 u hu2

/-- C5: when `get_violations` reports at least one active violation, `start_search`
returns with the service state untouched (no Search created, registered or enqueued),
and every player of the party has been sent the structured `search_timeout` listing
all timeouts, a `search_info stop` for the queue, and a notice naming the timed-out
players and carrying the longest remaining ban duration. -/
theorem c5_timeout_gating (st : LadderState) (players : List VPlayer) (qn : String)
    (t : VPlayer × ViolationR) (ts : List (VPlayer × ViolationR)) (now : Rat) :
    (start_search st players qn (t :: ts) now).1 = st ∧
    ∀ p ∈ players,
      (p.id, SSMsg.searchTimeout ((t :: ts).map fun pv => (pv.1.id, pv.2.expiresAt))) ∈
        (start_search st players qn (t :: ts) now).2 ∧
      (p.id, SSMsg.searchInfoStop qn) ∈ (start_search st players qn (t :: ts) now).2 ∧
      ∃ d,
        (p.id, SSMsg.timeoutNotice ((t :: ts).map fun pv => pv.1.login) d) ∈
          (start_search st players qn (t :: ts) now).2 ∧
        (∀ pv ∈ (t :: ts), pv.2.expiresAt - now ≤ d) ∧
        (∃ pv ∈ (t :: ts), pv.2.expiresAt - now = d) := by
  refine ⟨rfl, ?_⟩
  intro p hp
  have hspec := maxViolation_spec (ts.map fun pv => pv.2) t.2
  refine ⟨List.mem_flatMap.mpr ⟨p, hp, by simp⟩,
          List.mem_flatMap.mpr ⟨p, hp, by simp⟩,
          (maxViolation t.2 (ts.map fun pv => pv.2)).expiresAt - now,
          List.mem_flatMap.mpr ⟨p, hp, by simp⟩, ?_, ?_⟩
  · intro pv hpv
    rcases List.mem_cons.mp hpv with rfl | hpv2
    · exact sub_le_sub_right hspec.2.1 now
    · exact sub_le_sub_right (hspec.2.2 pv.2 (List.mem_map_of_mem _ hpv2)) now
  · rcases hspec.1 with h | h
    · exact ⟨t, by simp, by rw [h]⟩
    · obtain ⟨pv, hpv, hpv2⟩ := List.mem_map.mp h
      exact ⟨pv, by simp [hpv], by rw [hpv2]⟩

/-- C5 witness: one searching player with one active violation expiring at time 10,
now being 4. -/
theorem c5_timeout_gating_witness :
    (start_search ladderInit [⟨1, "alice", 0⟩] "q1" [(⟨1, "alice", 0⟩, ⟨10⟩)] 4).1 =
      ladderInit ∧
    ((1 : Nat), SSMsg.searchInfoStop "q1") ∈
      (start_search ladderInit [⟨1, "alice", 0⟩] "q1" [(⟨1, "alice", 0⟩, ⟨10⟩)] 4).2 := by
  have h := c5_timeout_gating ladderInit [⟨1, "alice", 0⟩] "q1" (⟨1, "alice", 0⟩, ⟨10⟩) [] 4
  exact ⟨h.1, (h.2 ⟨1, "alice", 0⟩ (by simp)).2.1⟩

/-! ### C6: the 1v1 merge filter -/

theorem has_no_overlap_iff (m : MMatch) (l : List MSearch) :
    has_no_overlap m l = true ↔ ∀ s ∈ searches_in_match m, s ∉ l := by
  simp [has_no_overlap, are_searches_disjoint, List.all_eq_true]

theorem matches_tmm_searches_mem (picked : List MMatch) (s : MSearch) :
    s ∈ matches_tmm_searches picked ↔ ∃ m ∈ picked, s ∈ searches_in_match m := by
  simp [matches_tmm_searches, List.mem_flatMap]

theorem add1v1_search_pairwise (queues1v1 : List (List MMatch)) :
    ∀ acc : List MMatch, List.Pairwise matchesSearchDisjoint acc →
    (∀ q ∈ queues1v1, List.Pairwise matchesSearchDisjoint q) →
    List.Pairwise matchesSearchDisjoint (add_matches_from1v1 acc queues1v1) := by
  induction queues1v1 with
  | nil => exact fun acc hacc _ => hacc
  | cons q rest ih =>
    intro acc hacc hq
    have hstep : add_matches_from1v1 acc (q :: rest) =
        add_matches_from1v1
          (acc ++ q.filter fun m => has_no_overlap m (matches_tmm_searches acc)) rest := rfl
    rw [hstep]
    apply ih
    · rw [List.pairwise_append]
      refine ⟨hacc, (hq q (by simp)).sublist (List.filter_sublist q), ?_⟩
      intro a ha b hb
      have hbf : has_no_overlap b (matches_tmm_searches acc) = true :=
        (List.mem_filter.mp hb).2
      rw [has_no_overlap_iff] at hbf
      intro s hs hsb
      exact hbf s hsb ((matches_tmm_searches_mem acc s).mpr ⟨a, ha, hs⟩)
    · intro q2 hq2
      exact hq q2 (by simp [hq2])

theorem pairwise_player_of_search (res : List MMatch)
    (hps : List.Pairwise matchesSearchDisjoint res)
    (hp : ∀ s1 ∈ matches_tmm_searches res, ∀ s2 ∈ matches_tmm_searches res,
      s1 ≠ s2 → ∀ q ∈ s1.players, q ∉ s2.players) :
    List.Pairwise matchesPlayerDisjoint res := by
  refine hps.imp_of_mem ?_
  intro m1 m2 h1 h2 hdisj q hq1 hq2
  simp only [match_players, List.mem_flatMap] at hq1 hq2
  obtain ⟨s1, hs1, hqs1⟩ := hq1
  obtain ⟨s2, hs2, hqs2⟩ := hq2
  have hne : s1 ≠ s2 := by
    rintro rfl
    exact hdisj s1 hs1 hs2
  exact hp s1 ((matches_tmm_searches_mem res s1).mpr ⟨m1, h1, hs1⟩)
    s2 ((matches_tmm_searches_mem res s2).mpr ⟨m2, h2, hs2⟩) hne q hqs1 hqs2

/-- C6 (amended): if the picked team matches are pairwise Search-disjoint and each
1v1 queue proposes pairwise Search-disjoint matches, then after the merge no original
Search appears in two picked matches; and no player appears in two picked matches
provided additionally that distinct Searches of the merged set carry disjoint player
sets. The original player-level conclusion does not follow from the filter alone,
since the same player can sit in two distinct Searches of different queues. -/
theorem c6_no_search_overlap (matchesTmm : List MMatch) (queues1v1 : List (List MMatch))
    (h1 : List.Pairwise matchesSearchDisjoint matchesTmm)
    (h2 : ∀ q ∈ queues1v1, List.Pairwise matchesSearchDisjoint q) :
    List.Pairwise matchesSearchDisjoint (add_matches_from1v1 matchesTmm queues1v1) ∧
    ((∀ s1 ∈ matches_tmm_searches (add_matches_from1v1 matchesTmm queues1v1),
      ∀ s2 ∈ matches_tmm_searches (add_matches_from1v1 matchesTmm queues1v1),
        s1 ≠ s2 → ∀ q ∈ s1.players, q ∉ s2.players) →
      List.Pairwise matchesPlayerDisjoint (add_matches_from1v1 matchesTmm queues1v1)) := by
  have hps := add1v1_search_pairwise queues1v1 matchesTmm h1 h2
  exact ⟨hps, fun hp => pairwise_player_of_search _ hps hp⟩

/-- C6 counterexample: the picked team match and the single 1v1 queue proposal are
each pairwise disjoint (on Searches and on players), the 1v1 match passes the
`has_no_overlap` filter because it shares no Search with the picked match, yet player 0
sits in both dispatched matches through two distinct Searches. -/
theorem c6_player_overlap_cex :
    List.Pairwise matchesSearchDisjoint c6Tmm ∧
    (∀ q ∈ c6Queues, List.Pairwise matchesSearchDisjoint q) ∧
    (∀ q ∈ c6Queues, List.Pairwise matchesPlayerDisjoint q) ∧
    List.Pairwise matchesPlayerDisjoint c6Tmm ∧
    ¬ List.Pairwise matchesPlayerDisjoint (add_matches_from1v1 c6Tmm c6Queues) := by
  decide

/-- C6 witness: the amended theorem on concrete data whose searches carry disjoint
player sets, giving a player-disjoint merged pick. -/
theorem c6_no_search_overlap_witness :
    List.Pairwise matchesPlayerDisjoint
      (add_matches_from1v1 [[⟨[⟨0, [0]⟩]⟩]] [[[⟨[⟨1, [1]⟩]⟩]]]) :=
  (c6_no_search_overlap [[⟨[⟨0, [0]⟩]⟩]] [[[⟨[⟨1, [1]⟩]⟩]]]
    (by decide) (by decide)).2 (by decide)

/-! ### C7 and C10: rating-progress notices -/

theorem wrp_informed_self (st : LadderState) (p : Nat) (dev : Rat) :
    p ∈ (write_rating_progress st p dev).1.informed := by
  unfold write_rating_progress
  split_ifs with h
  · exact h
  · simp
  · simp
  · simp

theorem wrp_informed_other (st : LadderState) (p q : Nat) (dev : Rat) (hne : p ≠ q) :
    p ∈ (write_rating_progress st q dev).1.informed ↔ p ∈ st.informed := by
  unfold write_rating_progress
  split_ifs <;> simp [hne]

theorem wrp_msgs_addr (st : LadderState) (q : Nat) (dev : Rat) :
    ∀ m ∈ (write_rating_progress st q dev).2, m.1 = q := by
  unfold write_rating_progress
  split_ifs <;> simp

theorem wrp_self_informed_msgs (st : LadderState) (p : Nat) (dev : Rat)
    (h : p ∈ st.informed) : (write_rating_progress st p dev).2 = [] := by
  unfold write_rating_progress
  rw [if_pos h]

theorem wrp_count_le_one (st : LadderState) (p : Nat) (dev : Rat) :
    rpNoticeCount (write_rating_progress st p dev).2 p ≤ 1 := by
  unfold write_rating_progress rpNoticeCount
  split_ifs <;> simp [isRPNotice]

theorem rpNoticeCount_append (a b : List (Nat × SSMsg)) (p : Nat) :
    rpNoticeCount (a ++ b) p = rpNoticeCount a p + rpNoticeCount b p := by
  simp [rpNoticeCount, List.filter_append]

theorem rpNoticeCount_of_addr (msgs : List (Nat × SSMsg)) (p : Nat)
    (h : ∀ m ∈ msgs, m.1 ≠ p) : rpNoticeCount msgs p = 0 := by
  rw [rpNoticeCount, List.length_eq_zero]
  simp only [List.filter_eq_nil_iff]
  intro m hm
  simp [h m hm]

theorem rpNoticeCount_of_notices (msgs : List (Nat × SSMsg)) (p : Nat)
    (h : ∀ m ∈ msgs, isRPNotice m.2 = false) : rpNoticeCount msgs p = 0 := by
  rw [rpNoticeCount, List.length_eq_zero]
  simp only [List.filter_eq_nil_iff]
  intro m hm
  simp [h m hm]

theorem resetIdle_informed (acc : LadderState) (q : Nat) :
    (resetIdle acc q).informed = acc.informed := by
  unfold resetIdle
  split_ifs <;> rfl

theorem foldl_resetIdle_informed (l : List Nat) : ∀ st0 : LadderState,
    (l.foldl resetIdle st0).informed = st0.informed := by
  induction l with
  | nil => exact fun _ => rfl
  | cons a t ih =>
    intro st0
    rw [List.foldl_cons, ih (resetIdle st0 a), resetIdle_informed]

theorem cancel_search_informed (st : LadderState) (p : Nat) (qn : String) :
    (cancel_search st p qn).1.informed = st.informed := by
  unfold cancel_search clear_search
  rcases hfind : findSearch st p qn with _ | s
  · simp [hfind]
  · simp [hfind, foldl_resetIdle_informed]

theorem cancel_search_msgs (st : LadderState) (p : Nat) (qn : String) :
    ∀ m ∈ (cancel_search st p qn).2, ∃ q2, m = (q2, SSMsg.searchInfoStop qn) := by
  unfold cancel_search clear_search
  rcases hfind : findSearch st p qn with _ | s
  · simp [hfind]
  · simp only [hfind]
    intro m hm
    obtain ⟨q2, _, rfl⟩ := List.mem_map.mp hm
    exact ⟨q2, rfl⟩

theorem cancel_search_all_informed (p : Nat) (l : List String) : ∀ st : LadderState,
    (cancel_search_all p st l).1.informed = st.informed := by
  induction l with
  | nil => exact fun _ => rfl
  | cons qn rest ih =>
    intro st
    show (cancel_search_all p (cancel_search st p qn).1 rest).1.informed = st.informed
    rw [ih (cancel_search st p qn).1, cancel_search_informed]

theorem cancel_search_all_msgs (p : Nat) (l : List String) : ∀ st : LadderState,
    ∀ m ∈ (cancel_search_all p st l).2, isRPNotice m.2 = false := by
  induction l with
  | nil => intro st m hm; exact absurd hm (by simp [cancel_search_all])
  | cons qn rest ih =>
    intro st m hm
    have hm2 : m ∈ (cancel_search st p qn).2 ++
        (cancel_search_all p (cancel_search st p qn).1 rest).2 := hm
    rcases List.mem_append.mp hm2 with h | h
    · obtain ⟨q2, rfl⟩ := cancel_search_msgs st p qn m h
      rfl
    · exact ih (cancel_search st p qn).1 m h

theorem ocl_informed (st : LadderState) (p q : Nat) (hne : p ≠ q) :
    p ∈ (on_connection_lost st q).1.informed ↔ p ∈ st.informed := by
  have hred : (on_connection_lost st q).1.informed =
      (cancel_search_all q st (playerQueueNames st q)).1.informed.erase q := rfl
  rw [hred, cancel_search_all_informed]
  exact List.mem_erase_of_ne hne

theorem ocl_msgs (st : LadderState) (q : Nat) :
    ∀ m ∈ (on_connection_lost st q).2, isRPNotice m.2 = false := by
  unfold on_connection_lost
  intro m hm
  exact cancel_search_all_msgs q (playerQueueNames st q) st m hm

theorem rp_bound (events : List RPEvent) : ∀ (st : LadderState) (p : Nat),
    (∀ e ∈ events, e ≠ RPEvent.connLost p) →
    rpNoticeCount (runRP st events).2 p ≤ (if p ∈ st.informed then 0 else 1) := by
  induction events with
  | nil =>
    intro st p _
    simp [runRP, rpNoticeCount]
  | cons e rest ih =>
    intro st p hne
    have hrest : ∀ x ∈ rest, x ≠ RPEvent.connLost p := fun x hx => hne x (by simp [hx])
    cases e with
    | write q dev =>
      rw [show (runRP st (RPEvent.write q dev :: rest)).2 =
          (write_rating_progress st q dev).2 ++
            (runRP (write_rating_progress st q dev).1 rest).2 from rfl]
      rw [rpNoticeCount_append]
      by_cases hpq : p = q
      · subst hpq
        by_cases hin : p ∈ st.informed
        · rw [wrp_self_informed_msgs st p dev hin]
          have h2 := ih (write_rating_progress st p dev).1 p hrest
          rw [if_pos (wrp_informed_self st p dev)] at h2
          rw [if_pos hin]
          simpa [rpNoticeCount] using h2
        · rw [if_neg hin]
          have hle := wrp_count_le_one st p dev
          have h2 := ih (write_rating_progress st p dev).1 p hrest
          rw [if_pos (wrp_informed_self st p dev)] at h2
          omega
      · have hmsgs : rpNoticeCount (write_rating_progress st q dev).2 p = 0 :=
          rpNoticeCount_of_addr _ p fun m hm => by
            rw [wrp_msgs_addr st q dev m hm]
            exact Ne.symm hpq
        rw [hmsgs]
        have h2 := ih (write_rating_progress st q dev).1 p hrest
        have hiff := wrp_informed_other st p q dev hpq
        by_cases hin : p ∈ st.informed
        · rw [if_pos hin]
          rw [if_pos (hiff.mpr hin)] at h2
          omega
        · rw [if_neg hin]
          rw [if_neg fun hc => hin (hiff.mp hc)] at h2
          omega
    | connLost q =>
      have hq : p ≠ q := by
        have hx := hne (RPEvent.connLost q) (by simp)
        intro hc
        exact hx (by rw [hc])
      rw [show (runRP st (RPEvent.connLost q :: rest)).2 =
          (on_connection_lost st q).2 ++
            (runRP (on_connection_lost st q).1 rest).2 from rfl]
      rw [rpNoticeCount_append]
      rw [rpNoticeCount_of_notices _ p (ocl_msgs st q)]
      have h2 := ih (on_connection_lost st q).1 p hrest
      have hiff := ocl_informed st p q hq
      by_cases hin : p ∈ st.informed
      · rw [if_pos hin]
        rw [if_pos (hiff.mpr hin)] at h2
        omega
      · rw [if_neg hin]
        rw [if_neg fun hc => hin (hiff.mp hc)] at h2
        omega

/-- C7 (amended): as long as a player suffers no connection loss, at most one
rating-progress notice is emitted for them (none once they are marked informed);
on first encounter, deviation above 490 yields the welcome notice, deviation in
(250, 490] yields the calibration notice reporting `(500 - deviation) / 2.5` percent.
The original once-per-process-lifetime claim fails because a connection loss clears
the informed flag. -/
theorem c7_rating_progress (st : LadderState) (events : List RPEvent) (p : Nat) (dev : Rat)
    (hne : ∀ e ∈ events, e ≠ RPEvent.connLost p) :
    rpNoticeCount (runRP st events).2 p ≤ (if p ∈ st.informed then 0 else 1) ∧
    (p ∉ st.informed → dev > 490 →
      (write_rating_progress st p dev).2 = [(p, SSMsg.welcomeNotice)]) ∧
    (p ∉ st.informed → ¬ dev > 490 → dev > 250 →
      (write_rating_progress st p dev).2 =
        [(p, SSMsg.calibrationNotice ((500 - dev) / (2.5 : Rat)))]) := by
  refine ⟨rp_bound events st p hne, ?_, ?_⟩
  · intro h1 h2
    simp [write_rating_progress, h1, h2]
  · intro h1 h2 h3
    simp [write_rating_progress, h1, h2, h3]

/-- C7 counterexample: in a fresh process, a player searches (welcome notice sent),
loses the connection, and searches again: a second rating-progress notice is emitted
within the same process lifetime. -/
theorem c7_once_per_process_cex :
    rpNoticeCount
      (runRP ladderInit
        [RPEvent.write 0 500, RPEvent.connLost 0, RPEvent.write 0 500]).2 0 = 2 := by
  decide

/-- C7 witness: one write event for an uninformed player with deviation 300. -/
theorem c7_rating_progress_witness :
    rpNoticeCount (runRP ladderInit [RPEvent.write 0 300]).2 0 ≤
      (if (0 : Nat) ∈ ladderInit.informed then 0 else 1) ∧
    (write_rating_progress ladderInit 0 300).2 =
      [(0, SSMsg.calibrationNotice ((500 - 300) / (2.5 : Rat)))] := by
  have h := c7_rating_progress ladderInit [RPEvent.write 0 300] 0 300 (by decide)
  exact ⟨h.1, h.2.2 (by decide) (by norm_num) (by norm_num)⟩

/-- C10: a first `write_rating_progress` call with deviation at most 250 sends
nothing yet marks the player informed, and afterwards no rating-progress notice is
ever emitted for them (absent a connection loss), whatever later calls observe. -/
theorem c10_silent_marking (st : LadderState) (p : Nat) (dev : Rat) (events : List RPEvent)
    (h1 : p ∉ st.informed) (h2 : dev ≤ 250)
    (hne : ∀ e ∈ events, e ≠ RPEvent.connLost p) :
    (write_rating_progress st p dev).2 = [] ∧
    p ∈ (write_rating_progress st p dev).1.informed ∧
    rpNoticeCount (runRP (write_rating_progress st p dev).1 events).2 p = 0 := by
  have h3 : ¬ dev > 490 := by
    intro hc
    linarith
  have h4 : ¬ dev > 250 := not_lt.mpr h2
  refine ⟨by simp [write_rating_progress, h1, h3, h4], wrp_informed_self st p dev, ?_⟩
  have hb := rp_bound events (write_rating_progress st p dev).1 p hne
  rw [if_pos (wrp_informed_self st p dev)] at hb
  omega

/-- C10 witness: a calibrated player (deviation 100) is silently marked; a later
call observing deviation 500 emits nothing. -/
theorem c10_silent_marking_witness :
    (write_rating_progress ladderInit 0 100).2 = [] ∧
    0 ∈ (write_rating_progress ladderInit 0 100).1.informed ∧
    rpNoticeCount
      (runRP (write_rating_progress ladderInit 0 100).1 [RPEvent.write 0 500]).2 0 = 0 :=
  c10_silent_marking ladderInit 0 100 [RPEvent.write 0 500]
    (by decide) (by norm_num) (by decide)
